import Mathlib

/-!
Verification of the category-resolution / clue-normalization pipeline of the
Capital Jeopardy client, shallowly embedded from the source.

The embedding covers:
* the clue data model (question, answer, nullable difficulty value, category
  title, air date);
* `searchClues` query-string construction (`max_date` / `min_date` defaults,
  `value` omitted for the "any" filter);
* the `onSearch` per-category pipeline: dedup by question text (first
  occurrence kept), defaulting falsy difficulty values to 0, stable ascending
  sort by value, the non-empty filter and the 12-record cap;
* rejected awaits: a failing fetch is modelled as `Except.error`, which
  propagates out of the loop exactly as an uncaught JS exception does;
* the `App` constructor's snapshot loading, and the `Category` component's
  `getHint` masking and first-5-clues rendering.
-/

namespace CapitalJeopardy

/-- Title record nested in each clue, mirroring `clue.category` objects
returned by the clues endpoint. -/
structure CatInfo where
  title : String
deriving DecidableEq, Repr, Inhabited

/-- One clue as returned by the clues endpoint: question text, answer text,
nullable difficulty value (`none` models JS `null`/absent), the originating
category, and an air date.  Mirrors the fields the app reads. -/
structure Clue where
  id : Nat
  question : String
  answer : String
  value : Option Int
  category : CatInfo
  airdate : String
deriving DecidableEq, Repr, Inhabited

/-- A category record accumulated by `onSearch`:
`{ title: uniqueClues[0].category.title, clues: uniqueClues }`. -/
structure Category where
  title : String
  clues : List Clue
deriving DecidableEq, Repr, Inhabited

/-- `MAX_CATEGORIES`: the maximum number of search results shown. -/
def MAX_CATEGORIES : Nat := 12

/-- The difficulty filter: the string `'any'` or one fixed numeric value,
as selected from the difficulty dropdown. -/
inductive DifficultyFilter where
  | any
  | val (v : Int)
deriving DecidableEq, Repr

/-- The `filters` sub-state: optional min/max date strings (`none` models JS
`undefined`) and the difficulty filter. -/
structure Filters where
  min_date : Option String
  max_date : Option String
  value : DifficultyFilter
deriving DecidableEq, Repr

/-- JS `s || d` on an optional string: `undefined` and the empty string are
falsy, any other string is returned unchanged. -/
def jsOr (s : Option String) (d : String) : String :=
  match s with
  | none => d
  | some t => if t = "" then d else t

/-- `new Date(0).toISOString()`: the epoch, the default lower date bound. -/
def epochIso : String := "1970-01-01T00:00:00.000Z"

/-- The four query-string components built by `searchClues`, in source order
`[maxDateQs, minDateQs, categoryQs, valueQs]`.  `now` stands for
`new Date().toISOString()` at call time. -/
def searchCluesParts (filters : Filters) (now : String) (categoryId : String) : List String :=
  let categoryQs := "category=" ++ categoryId
  let maxDateQs := "max_date=" ++ jsOr filters.max_date now
  let minDateQs := "min_date=" ++ jsOr filters.min_date epochIso
  let valueQs :=
    match filters.value with
    | .any => ""
    | .val v => "value=" ++ toString v
  [maxDateQs, minDateQs, categoryQs, valueQs]

/-- The `constructedUrl` of `searchClues`: the clues endpoint followed by the
`&`-join of the four components. -/
def constructedUrl (filters : Filters) (now : String) (categoryId : String) : String :=
  "http://jservice.io/api/clues?" ++ String.intercalate "&" (searchCluesParts filters now categoryId)

/-- Dedup loop of `onSearch`: walk the clue list keeping a set of question
texts already seen (modelled as a list), pushing a clue onto the output only
when its question text is new. -/
def dedupGo (seen : List String) : List Clue → List Clue
  | [] => []
  | c :: rest =>
    if c.question ∈ seen then dedupGo seen rest
    else c :: dedupGo (c.question :: seen) rest

/-- `uniqueClues` as built from an empty seen-set. -/
def dedupClues (clues : List Clue) : List Clue :=
  dedupGo [] clues

/-- The value-defaulting step `clue.value = clue.value ? clue.value : 0`:
JS-falsy values (`null`, absent, `0`) become the number `0`; any other
number is kept.  On `Option Int` this is exactly `getD 0`. -/
def defaultClueValue (c : Clue) : Clue :=
  { c with value := some (c.value.getD 0) }

/-- The order induced by the sort comparator
`(clue1, clue2) => clue1.value - clue2.value`: ascending numeric order on
values.  At the sort site every value is a number (`some`), and `getD 0`
reads it. -/
def clueLE (c1 c2 : Clue) : Prop :=
  c1.value.getD 0 ≤ c2.value.getD 0

instance : DecidableRel clueLE :=
  fun c1 c2 => Int.decLe (c1.value.getD 0) (c2.value.getD 0)

instance : IsTotal Clue clueLE :=
  ⟨fun c1 c2 => Int.le_total (c1.value.getD 0) (c2.value.getD 0)⟩

instance : IsTrans Clue clueLE :=
  ⟨fun _ _ _ h1 h2 => le_trans h1 h2⟩

/-- The full normalization applied to one category's clue list by `onSearch`:
dedup by question text, default falsy values to 0, then a stable ascending
sort by value.  ECMAScript `Array.prototype.sort` is required to be stable,
and a stable comparator-consistent sort has a unique output, here modelled by
insertion sort. -/
def normalizeClues (clues : List Clue) : List Clue :=
  List.insertionSort clueLE ((dedupClues clues).map defaultClueValue)

/-- The per-identifier loop of `onSearch` over `matchedIds`.  `fetch` models
`searchClues` for the current filter state: `Except.error` is a rejected
promise, which an uncaught `await` propagates out of the whole loop.
A non-empty normalized clue list is pushed as a category record and the loop
breaks once the accumulator reaches `MAX_CATEGORIES`. -/
def resolveCategories (fetch : String → Except Unit (List Clue)) :
    List String → List Category → Except Unit (List Category)
  | [], categories => .ok categories
  | categoryId :: rest, categories =>
    match fetch categoryId with
    | .error e => .error e
    | .ok clues =>
      match normalizeClues clues with
      | [] => resolveCategories fetch rest categories
      | c :: cs =>
        if MAX_CATEGORIES ≤ (categories ++ [({ title := c.category.title, clues := c :: cs } : Category)]).length
        then .ok (categories ++ [({ title := c.category.title, clues := c :: cs } : Category)])
        else resolveCategories fetch rest (categories ++ [({ title := c.category.title, clues := c :: cs } : Category)])

/-- One answered record `{ clue, answer }`. -/
structure AnswerRec where
  clue : Clue
  answer : String
deriving DecidableEq, Repr

/-- The component state of `App`. -/
structure AppState where
  filters : Filters
  searchText : String
  categories : List Category
  answered : List AnswerRec
  favorites : List Clue
  searching : Bool
deriving DecidableEq, Repr

/-- `INITIAL_STATE` of the app. -/
def INITIAL_STATE : AppState :=
  { filters := { min_date := none, max_date := none, value := .any }
    searchText := ""
    categories := []
    answered := []
    favorites := []
    searching := false }

/-- Outcome of `JSON.parse(localStorage.getItem('app-state'))`:
`ok (some s)` is a truthy parsed state, `ok none` a falsy parse result (in
particular `JSON.parse(null)` when the key is absent), and `err` a thrown
`SyntaxError` on a malformed snapshot. -/
inductive SnapshotParse where
  | ok (s : Option AppState)
  | err
deriving DecidableEq

/-- The `App` constructor: a truthy saved state is adopted, a falsy one falls
back to `INITIAL_STATE`, and a parse exception propagates out of the
constructor (there is no surrounding catch). -/
def appConstructor : SnapshotParse → Except Unit AppState
  | .ok (some s) => .ok s
  | .ok none => .ok INITIAL_STATE
  | .err => .error ()

/-- The state transition of one `onSearch` run.  `searchRes` is the outcome
of the category-search scrape (already reduced to its extracted
`matchedIds`), `clueFetch` the outcome of `searchClues` per identifier.  The
method first commits `searching: true`; a rejected await afterwards stops
execution there, so the committed state keeps `searching: true`.  On success
it commits `searching: false` together with the new category records. -/
def onSearch (searchRes : Except Unit (List String))
    (clueFetch : String → Except Unit (List Clue)) (st : AppState) : AppState :=
  let st1 := { st with searching := true }
  match searchRes with
  | .error _ => st1
  | .ok matchedIds =>
    match resolveCategories clueFetch matchedIds [] with
    | .error _ => st1
    | .ok cats => { st1 with searching := false, categories := cats }

/-- JS whitespace test used by the regex class `\S` in `getHint`
(space, tab, line feed, vertical tab, form feed, carriage return,
no-break space). -/
def jsWhitespace (c : Char) : Bool :=
  c == ' ' || c == '\t' || c == '\n' || c == Char.ofNat 0x0b ||
    c == Char.ofNat 0x0c || c == '\r' || c == Char.ofNat 0xa0

/-- `replace(/\S/g, "*")` on one character. -/
def maskChar (c : Char) : Char :=
  if jsWhitespace c then c else '*'

/-- `getHint` on the character list of the answer text: under 3 characters
the whole string is masked; otherwise `hint[0]`, the masked
`substring(1, length - 1)`, and `hint[length - 1]`. -/
def getHintL (cs : List Char) : List Char :=
  if cs.length < 3 then cs.map maskChar
  else cs.take 1 ++ ((cs.drop 1).take (cs.length - 2)).map maskChar ++ cs.drop (cs.length - 1)

/-- `getHint` on the answer string. -/
def getHint (answer : String) : String :=
  ⟨getHintL answer.data⟩

/-- `first5Clues` of `Category.render`: `this.state.category.clues.slice(0, 5)`,
the clue buttons actually rendered on the card. -/
def first5Clues (category : Category) : List Clue :=
  category.clues.take 5

/-- A sample clue whose difficulty value is `null`, as in the spec's
normalization scenario. -/
def clueQ1null : Clue :=
  { id := 1, question := "Q1", answer := "alpha", value := none
    category := { title := "T" }, airdate := "2014-02-01" }

/-- A later clue repeating the question text `Q1`. -/
def clueQ1dup : Clue :=
  { id := 2, question := "Q1", answer := "beta", value := some 200
    category := { title := "T" }, airdate := "2014-02-02" }

/-- A clue with question text `Q2` and value 100. -/
def clueQ2 : Clue :=
  { id := 3, question := "Q2", answer := "cat", value := some 100
    category := { title := "T" }, airdate := "2014-02-03" }

/-- A clue with question text `Q3` and the same value as `clueQ2`. -/
def clueQ3 : Clue :=
  { id := 4, question := "Q3", answer := "ox", value := some 100
    category := { title := "T" }, airdate := "2014-02-04" }

/-- The category record produced from a fetch returning `[clueQ2]`. -/
def catQ2 : Category :=
  { title := "T", clues := [clueQ2] }

/-- A fetch in which every category identifier yields `[clueQ2]`. -/
def fetchOkQ2 : String → Except Unit (List Clue) :=
  fun _ => .ok [clueQ2]

/-- A fetch in which the clues request for identifier `"1"` rejects while
every other identifier yields `[clueQ2]`. -/
def fetchFailFirst : String → Except Unit (List Clue) :=
  fun categoryId => if categoryId = "1" then .error () else .ok [clueQ2]

/-- The initial filter state: no date constraints, difficulty `'any'`. -/
def filtersAny : Filters :=
  { min_date := none, max_date := none, value := .any }

@[simp]
theorem question_defaultClueValue (c : Clue) : (defaultClueValue c).question = c.question :=
  rfl

/-- A clue emitted by the dedup loop has a question text outside the seen
set, and is the first clue of the remaining input with that question text. -/
theorem dedupGo_mem (l : List Clue) : ∀ (seen : List String) (c : Clue),
    c ∈ dedupGo seen l →
    c.question ∉ seen ∧ l.find? (fun d => d.question == c.question) = some c := by
  induction l with
  | nil =>
    intro seen c h
    simp [dedupGo] at h
  | cons d rest ih =>
    intro seen c h
    by_cases hd : d.question ∈ seen
    · rw [dedupGo, if_pos hd] at h
      obtain ⟨hns, hfind⟩ := ih seen c h
      have hne : (d.question == c.question) = false := by
        simp only [beq_eq_false_iff_ne, ne_eq]
        intro he
        exact hns (he ▸ hd)
      exact ⟨hns, by rw [List.find?_cons_of_neg _ (by simp [hne]), hfind]⟩
    · rw [dedupGo, if_neg hd] at h
      rcases List.mem_cons.mp h with rfl | hmem
      · exact ⟨hd, by rw [List.find?_cons_of_pos _ (by simp)]⟩
      · obtain ⟨hns, hfind⟩ := ih (d.question :: seen) c hmem
        have hne : c.question ≠ d.question := fun he => hns (by simp [he])
        refine ⟨fun hc => hns (List.mem_cons_of_mem _ hc), ?_⟩
        rw [List.find?_cons_of_neg _ (by simpa using fun he => hne (Eq.symm he)), hfind]

/-- The dedup loop emits pairwise distinct question texts. -/
theorem dedupGo_pairwise (l : List Clue) :
    ∀ seen : List String,
      (dedupGo seen l).Pairwise (fun a b => a.question ≠ b.question) := by
  induction l with
  | nil =>
    intro seen
    simp [dedupGo]
  | cons d rest ih =>
    intro seen
    by_cases hd : d.question ∈ seen
    · rw [dedupGo, if_pos hd]
      exact ih seen
    · rw [dedupGo, if_neg hd]
      refine List.Pairwise.cons ?_ (ih (d.question :: seen))
      intro b hb he
      exact (dedupGo_mem rest (d.question :: seen) b hb).1 (by simp [← he])

/-- Defaulting the difficulty value commutes with the dedup loop, because
dedup keys only on the (unchanged) question text. -/
theorem map_defaultClueValue_dedupGo (l : List Clue) :
    ∀ seen : List String,
      (dedupGo seen l).map defaultClueValue = dedupGo seen (l.map defaultClueValue) := by
  induction l with
  | nil =>
    intro seen
    simp [dedupGo]
  | cons d rest ih =>
    intro seen
    by_cases hd : d.question ∈ seen
    · rw [List.map_cons, dedupGo, if_pos hd, dedupGo, question_defaultClueValue, if_pos hd]
      exact ih seen
    · rw [List.map_cons, dedupGo, if_neg hd, dedupGo, question_defaultClueValue, if_neg hd,
        List.map_cons]
      rw [ih (d.question :: seen)]

/-- Membership in the normalized output is membership in the defaulted
deduplicated list. -/
theorem mem_normalizeClues {c : Clue} {clues : List Clue} :
    c ∈ normalizeClues clues ↔ c ∈ (dedupClues clues).map defaultClueValue :=
  List.mem_insertionSort clueLE

/-- C2: the Normalizer's output never contains two clues with equal question
text, and every output clue is (the value-defaulted copy of) the first clue
in the input carrying its question text. -/
theorem normalizeClues_dedup_firstOccurrence (clues : List Clue) :
    (normalizeClues clues).Pairwise (fun a b => a.question ≠ b.question) ∧
    ∀ c ∈ normalizeClues clues, ∃ c₀ : Clue,
      clues.find? (fun d => d.question == c.question) = some c₀ ∧
      c = defaultClueValue c₀ := by
  constructor
  · have h2 : ((dedupClues clues).map defaultClueValue).Pairwise
        (fun a b => a.question ≠ b.question) := by
      refine List.Pairwise.map defaultClueValue ?_ (dedupGo_pairwise clues [])
      intro a b hab
      simpa using hab
    have hperm := List.perm_insertionSort clueLE ((dedupClues clues).map defaultClueValue)
    exact (hperm.pairwise_iff (fun h => h.symm)).mpr h2
  · intro c hc
    obtain ⟨c₀, hc₀, rfl⟩ := List.mem_map.mp (mem_normalizeClues.mp hc)
    exact ⟨c₀, (dedupGo_mem clues [] c₀ hc₀).2, rfl⟩

/-- C2 witness: on the spec's scenario input the output clue with question
`Q1` is the defaulted copy of the first `Q1` clue. -/
theorem normalizeClues_dedup_firstOccurrence_witness :
    ∃ c₀ : Clue,
      [clueQ1null, clueQ1dup, clueQ2].find?
        (fun d => d.question == (defaultClueValue clueQ1null).question) = some c₀ ∧
      defaultClueValue clueQ1null = defaultClueValue c₀ :=
  (normalizeClues_dedup_firstOccurrence [clueQ1null, clueQ1dup, clueQ2]).2
    (defaultClueValue clueQ1null) (by decide)

/-- C3: the Normalizer's output is sorted non-decreasing by difficulty
value, and the sort is stable: two clues with equal value that stand in some
order in the deduplicated (and value-defaulted) list stand in the same order
in the sorted output. -/
theorem normalizeClues_sorted_stable (clues : List Clue) :
    (normalizeClues clues).Pairwise clueLE ∧
    ∀ a b : Clue, a.value.getD 0 = b.value.getD 0 →
      List.Sublist [a, b] ((dedupClues clues).map defaultClueValue) →
      List.Sublist [a, b] (normalizeClues clues) := by
  constructor
  · exact List.sorted_insertionSort clueLE ((dedupClues clues).map defaultClueValue)
  · intro a b hval hsub
    exact List.pair_sublist_insertionSort (le_of_eq hval) hsub

/-- C3 witness: two equal-value clues with distinct questions keep their
relative order through the sort. -/
theorem normalizeClues_sorted_stable_witness :
    List.Sublist [defaultClueValue clueQ2, defaultClueValue clueQ3]
      (normalizeClues [clueQ2, clueQ3]) :=
  (normalizeClues_sorted_stable [clueQ2, clueQ3]).2
    (defaultClueValue clueQ2) (defaultClueValue clueQ3) rfl (by decide)

/-- C4: every clue in the Normalizer's output carries a concrete (non-null)
difficulty value; a deduplicated clue whose input value was null appears in
the output with value 0; and defaulting commutes with dedup, so running the
defaulting step before dedup (as §3 of the spec words it) yields exactly the
same output as the code's dedup-then-default order. -/
theorem normalizeClues_value_defaulting (clues : List Clue) :
    (∀ c ∈ normalizeClues clues, ∃ v : Int, c.value = some v) ∧
    (∀ c ∈ dedupClues clues, c.value = none →
      defaultClueValue c ∈ normalizeClues clues ∧
      (defaultClueValue c).value = some 0) ∧
    normalizeClues clues =
      List.insertionSort clueLE (dedupClues (clues.map defaultClueValue)) := by
  refine ⟨?_, ?_, ?_⟩
  · intro c hc
    obtain ⟨c₀, _, rfl⟩ := List.mem_map.mp (mem_normalizeClues.mp hc)
    exact ⟨c₀.value.getD 0, rfl⟩
  · intro c hc hnull
    refine ⟨mem_normalizeClues.mpr (List.mem_map_of_mem defaultClueValue hc), ?_⟩
    simp [defaultClueValue, hnull]
  · unfold normalizeClues dedupClues
    rw [map_defaultClueValue_dedupGo]

/-- C4 witness: a null-valued clue surviving dedup shows up in the output
with value 0. -/
theorem normalizeClues_value_defaulting_witness :
    defaultClueValue clueQ1null ∈ normalizeClues [clueQ1null, clueQ1dup, clueQ2] ∧
    (defaultClueValue clueQ1null).value = some 0 :=
  (normalizeClues_value_defaulting [clueQ1null, clueQ1dup, clueQ2]).2.1
    clueQ1null (by decide) rfl

/-- Loop invariant of the `onSearch` accumulation: starting strictly below
the cap with only non-empty records, a successful run ends at or below the
cap with only non-empty records. -/
theorem resolveCategories_invariant (fetch : String → Except Unit (List Clue)) :
    ∀ (ids : List String) (acc cats : List Category),
      resolveCategories fetch ids acc = .ok cats →
      acc.length < MAX_CATEGORIES →
      (∀ cat ∈ acc, cat.clues ≠ []) →
      cats.length ≤ MAX_CATEGORIES ∧ ∀ cat ∈ cats, cat.clues ≠ [] := by
  intro ids
  induction ids with
  | nil =>
    intro acc cats h hlen hne
    rw [resolveCategories] at h
    cases h
    exact ⟨Nat.le_of_lt hlen, hne⟩
  | cons id rest ih =>
    intro acc cats h hlen hne
    rw [resolveCategories] at h
    split at h
    · exact Except.noConfusion h
    · split at h
      · exact ih acc cats h hlen hne
      · rename_i clues hf c cs hn
        have hne' : ∀ cat ∈ acc ++ [{ title := c.category.title, clues := c :: cs }],
            cat.clues ≠ [] := by
          intro cat hcat
          rcases List.mem_append.mp hcat with hmem | hmem
          · exact hne cat hmem
          · rw [List.mem_singleton.mp hmem]
            simp
        split at h
        · rename_i hcap
          cases h
          refine ⟨?_, hne'⟩
          simp only [List.length_append, List.length_singleton]
          simp only [MAX_CATEGORIES] at hlen ⊢
          omega
        · rename_i hcap
          exact ih _ cats h (Nat.lt_of_not_le hcap) hne'

/-- C1: a successful search run produces at most `MAX_CATEGORIES` (12)
category records, all with a non-empty clue list; a category whose
normalized clue list is empty leaves the run unchanged — it is dropped and
does not count toward the cap. -/
theorem onSearch_category_cap (fetch : String → Except Unit (List Clue)) :
    (∀ (ids : List String) (cats : List Category),
      resolveCategories fetch ids [] = .ok cats →
      cats.length ≤ MAX_CATEGORIES ∧ ∀ cat ∈ cats, cat.clues ≠ []) ∧
    ∀ (id : String) (rest : List String) (acc : List Category) (clues : List Clue),
      fetch id = .ok clues → normalizeClues clues = [] →
      resolveCategories fetch (id :: rest) acc = resolveCategories fetch rest acc := by
  constructor
  · intro ids cats h
    refine resolveCategories_invariant fetch ids [] cats h ?_ ?_
    · simp [MAX_CATEGORIES]
    · simp
  · intro id rest acc clues hf hn
    simp only [resolveCategories, hf, hn]

/-- C1 witness: a single identifier yielding one non-empty category gives
one record, within the cap. -/
theorem onSearch_category_cap_witness :
    [catQ2].length ≤ MAX_CATEGORIES ∧ ∀ cat ∈ [catQ2], cat.clues ≠ [] :=
  (onSearch_category_cap fetchOkQ2).1 ["1"] [catQ2] rfl

/-- C5 counterexample: with a fetch whose clues request for identifier `"1"`
rejects while identifier `"2"` would yield a non-empty category, the run
over `["1", "2"]` fails outright — identifier `"2"` is never processed and
no category list is produced, contradicting the claim that the iteration is
aborted for the failing identifier only. -/
theorem resolveCategories_continue_counterexample :
    resolveCategories fetchFailFirst ["1", "2"] [] = .error () ∧
    resolveCategories fetchFailFirst ["2"] [] = .ok [catQ2] :=
  ⟨rfl, rfl⟩

/-- C5 (amended): a failing clues request rejects the whole iteration — the
error propagates out of the loop, the remaining identifiers are not
processed, and no category list is produced. -/
theorem resolveCategories_error_propagates (fetch : String → Except Unit (List Clue))
    (id : String) (rest : List String) (acc : List Category) (e : Unit)
    (h : fetch id = .error e) :
    resolveCategories fetch (id :: rest) acc = .error e := by
  simp only [resolveCategories, h]

/-- C5 witness: the amended propagation applied to the concrete failing
fetch. -/
theorem resolveCategories_error_propagates_witness :
    resolveCategories fetchFailFirst ["1", "2", "3"] [] = .error () :=
  resolveCategories_error_propagates fetchFailFirst "1" ["2", "3"] [] () rfl

/-- C6: evaluating `onSearch` at failing retrievals.  The method commits
`searching: true` first; the rejected await skips the trailing
`setState({ searching: false, ... })`, so the committed state keeps
`searching = true` — the spinner is stuck, contrary to the requirement that
the UI end in a non-searching state. -/
theorem onSearch_searching_stuck_true :
    (onSearch (.ok ["1"]) (fun _ => .error ()) INITIAL_STATE).searching = true ∧
    (onSearch (.error ()) (fun _ => .ok []) INITIAL_STATE).searching = true :=
  ⟨rfl, rfl⟩

/-- C7 counterexample: a malformed snapshot makes `JSON.parse` throw inside
the constructor; the exception propagates, so the app does not initialize
with the fixed initial state. -/
theorem appConstructor_malformed_counterexample :
    appConstructor SnapshotParse.err ≠ Except.ok INITIAL_STATE := by
  simp [appConstructor]

/-- C7 (amended): an absent snapshot (a falsy parse result) falls back to
the fixed initial state and a truthy saved state is adopted, but a malformed
snapshot propagates the parse exception out of the constructor instead of
falling back. -/
theorem appConstructor_snapshot_fallback :
    appConstructor (SnapshotParse.ok none) = Except.ok INITIAL_STATE ∧
    appConstructor SnapshotParse.err = Except.error () ∧
    ∀ s : AppState, appConstructor (SnapshotParse.ok (some s)) = Except.ok s :=
  ⟨rfl, rfl, fun _ => rfl⟩

/-- Two string concatenations differ when their left parts are non-empty
and start with different characters. -/
theorem append_ne_append (a b x y : String) (ha : a.data ≠ []) (hb : b.data ≠ [])
    (h : a.data.head? ≠ b.data.head?) : a ++ x ≠ b ++ y := by
  intro he
  apply h
  have hd : a.data ++ x.data = b.data ++ y.data := by
    simpa [String.data_append] using congrArg String.data he
  have h1 := congrArg List.head? hd
  rw [List.head?_append, List.head?_append] at h1
  rcases List.exists_cons_of_ne_nil ha with ⟨c, cs, hac⟩
  rcases List.exists_cons_of_ne_nil hb with ⟨d, ds, hbd⟩
  rw [hac, hbd]
  rw [hac, hbd] at h1
  simpa using h1

/-- The empty string is not a concatenation starting with a non-empty
string. -/
theorem empty_ne_append (b y : String) (hb : b.data ≠ []) : "" ≠ b ++ y := by
  intro he
  have hd : ([] : List Char) = b.data ++ y.data := by
    simpa [String.data_append] using congrArg String.data he
  exact hb (List.append_eq_nil.mp hd.symm).1

/-- C8: when the difficulty filter is `'any'` no component of the clues
query is a `value=` parameter; when it is a fixed value the query contains
`value=<that value>` literally; `max_date=` and `min_date=` components are
always present, falling back to the current time and the epoch when the
corresponding filter is unset. -/
theorem searchClues_query_params (filters : Filters) (now categoryId : String) :
    (filters.value = .any →
      ∀ p ∈ searchCluesParts filters now categoryId, ∀ s : String, p ≠ "value=" ++ s) ∧
    (∀ v : Int, filters.value = .val v →
      ("value=" ++ toString v) ∈ searchCluesParts filters now categoryId) ∧
    ("max_date=" ++ jsOr filters.max_date now) ∈ searchCluesParts filters now categoryId ∧
    ("min_date=" ++ jsOr filters.min_date epochIso) ∈ searchCluesParts filters now categoryId ∧
    (filters.max_date = none → ("max_date=" ++ now) ∈ searchCluesParts filters now categoryId) ∧
    (filters.min_date = none → ("min_date=" ++ epochIso) ∈ searchCluesParts filters now categoryId) := by
  refine ⟨?_, ?_, ?_, ?_, ?_, ?_⟩
  · intro hany p hp s
    simp only [searchCluesParts, hany, List.mem_cons, List.not_mem_nil, or_false] at hp
    rcases hp with rfl | rfl | rfl | rfl
    · exact append_ne_append _ _ _ _ (by decide) (by decide) (by decide)
    · exact append_ne_append _ _ _ _ (by decide) (by decide) (by decide)
    · exact append_ne_append _ _ _ _ (by decide) (by decide) (by decide)
    · exact empty_ne_append _ _ (by decide)
  · intro v hv
    simp [searchCluesParts, hv]
  · simp [searchCluesParts]
  · simp [searchCluesParts]
  · intro h
    simp [searchCluesParts, h, jsOr]
  · intro h
    simp [searchCluesParts, h, jsOr]

/-- C8 witness: with the initial filters the query carries the defaulted
`max_date` and its empty fourth component is not a `value=` parameter. -/
theorem searchClues_query_params_witness :
    ("max_date=" ++ "NOW") ∈ searchCluesParts filtersAny "NOW" "123" ∧
    ("" : String) ≠ "value=" ++ "100" :=
  ⟨(searchClues_query_params filtersAny "NOW" "123").2.2.2.2.1 rfl,
   (searchClues_query_params filtersAny "NOW" "123").1 rfl "" (by decide) "100"⟩

/-- C9: for answers of length at least 3 the hint keeps the first and last
characters and masks every interior non-whitespace character with `*`
(interior whitespace is kept); shorter answers are fully masked; in
particular the hint for `cat` is `c*t` and the hint for `ox` is `**`. -/
theorem getHint_mask_spec (cs : List Char) :
    (3 ≤ cs.length →
      (getHintL cs).length = cs.length ∧
      (getHintL cs)[0]? = cs[0]? ∧
      (getHintL cs)[cs.length - 1]? = cs[cs.length - 1]? ∧
      ∀ i : Nat, 0 < i → i + 1 < cs.length →
        (getHintL cs)[i]? = (cs[i]?).map maskChar) ∧
    (cs.length < 3 → getHintL cs = cs.map maskChar) ∧
    getHint "cat" = "c*t" ∧ getHint "ox" = "**" := by
  refine ⟨?_, ?_, by decide, by decide⟩
  · intro h3
    have hnot : ¬ cs.length < 3 := by omega
    have hA : (cs.take 1).length = 1 := by
      rw [List.length_take]
      omega
    have hB : (((cs.drop 1).take (cs.length - 2)).map maskChar).length = cs.length - 2 := by
      rw [List.length_map, List.length_take, List.length_drop]
      omega
    have hC : (cs.drop (cs.length - 1)).length = 1 := by
      rw [List.length_drop]
      omega
    have hAB : (cs.take 1 ++ ((cs.drop 1).take (cs.length - 2)).map maskChar).length
        = cs.length - 1 := by
      rw [List.length_append, hA, hB]
      omega
    refine ⟨?_, ?_, ?_, ?_⟩
    · simp only [getHintL, if_neg hnot, List.length_append, hA, hB, hC]
      omega
    · simp only [getHintL]
      rw [if_neg hnot,
        List.getElem?_append_left (by rw [hAB]; omega),
        List.getElem?_append_left (by rw [hA]; omega),
        List.getElem?_take_of_lt (by omega)]
    · simp only [getHintL]
      rw [if_neg hnot,
        List.getElem?_append_right (le_of_eq hAB), hAB,
        Nat.sub_self, List.getElem?_drop, Nat.add_zero]
    · intro i hi0 hiL
      simp only [getHintL]
      rw [if_neg hnot,
        List.getElem?_append_left (by rw [hAB]; omega),
        List.getElem?_append_right (by rw [hA]; omega), hA,
        List.getElem?_map,
        List.getElem?_take_of_lt (by omega),
        List.getElem?_drop]
      have hidx : 1 + (i - 1) = i := by omega
      rw [hidx]
  · intro h
    simp only [getHintL, if_pos h]

/-- C9 witness: on `abcd` the first character survives and the second is
masked; on `ox` the whole string is masked. -/
theorem getHint_mask_spec_witness :
    (getHintL "abcd".data)[0]? = "abcd".data[0]? ∧
    (getHintL "abcd".data)[1]? = ("abcd".data[1]?).map maskChar ∧
    getHintL "ox".data = "ox".data.map maskChar :=
  ⟨((getHint_mask_spec "abcd".data).1 (by decide)).2.1,
   ((getHint_mask_spec "abcd".data).1 (by decide)).2.2.2 1 (by decide) (by decide),
   (getHint_mask_spec "ox".data).2.1 (by decide)⟩

/-- C10: the category card renders exactly the first five clues of the
category's clue sequence, in order — the length of the rendered list is at
most 5, positions below 5 agree with the clue sequence, and nothing beyond
the fifth clue appears. -/
theorem category_render_first5 (category : Category) :
    (first5Clues category).length ≤ 5 ∧
    ∀ i : Nat, (first5Clues category)[i]? = if i < 5 then category.clues[i]? else none := by
  constructor
  · simp only [first5Clues, List.length_take]
    omega
  · intro i
    by_cases hi : i < 5
    · rw [if_pos hi]
      simp only [first5Clues]
      exact List.getElem?_take_of_lt hi
    · rw [if_neg hi]
      apply List.getElem?_eq_none
      simp only [first5Clues, List.length_take]
      omega

end CapitalJeopardy
